import Mathlib

/-!
Verification of the pointer-picking input pipeline of `bevy_mod_picking`.

The development shallowly embeds the repository's source files:
  * `src/mouse.rs` — `update_pick_source_positions`, `get_inputs`,
    `window_to_viewport`;
  * `src/lib.rs` — `PointerBundle::new`, `add_default_pointers`;
  * `crates/bevy_picking_input/src/mouse.rs` — `get_cursor_position`,
    `update_cursor`.

Floating-point (`f32`/`f64`) values are idealised as rationals (`ℚ`); the
Rust saturating float-to-integer casts and the float remainder operator are
embedded explicitly below.  Machine integers (`u32`) are modelled as `ℕ`
(the claims never exercise wrap-around).
-/

namespace Picking

/-- A 2D float vector (`glam::Vec2`), idealised over `ℚ`. -/
structure Vec2 where
  x : ℚ
  y : ℚ
deriving DecidableEq, Repr

/-- A 2D `u32` vector (`glam::UVec2`). -/
structure UVec2 where
  x : ℕ
  y : ℕ
deriving DecidableEq, Repr

/-- Rust float-to-signed-integer `as` cast: truncation toward zero
(saturation at the `i32` range is idealised away). -/
def ratTrunc (q : ℚ) : ℤ :=
  if 0 ≤ q then ⌊q⌋ else ⌈q⌉

/-- Rust float-to-`u32` `as` cast: truncation toward zero, negative values
saturate to `0` (saturation at `u32::MAX` is idealised away). -/
def toU32sat (q : ℚ) : ℕ :=
  if q ≤ 0 then 0 else (ratTrunc q).toNat

/-- Rust's float remainder `a % b`: `a - b * trunc(a / b)` (result carries
the sign of the dividend). -/
def rustRem (a b : ℚ) : ℚ :=
  a - b * (ratTrunc (a / b))

/-- `bevy::render::camera::RenderTarget`: a window or an off-screen image. -/
inductive RenderTarget where
  | window (id : ℕ)
  | image (id : ℕ)
deriving DecidableEq, Repr

/-- `bevy::render::camera::Viewport` (depth range omitted, unused here). -/
structure Viewport where
  physical_position : UVec2
  physical_size : UVec2
deriving DecidableEq, Repr

/-- The computed render-target information of a bevy camera: physical size
of the target and its window scale factor. -/
structure RenderTargetInfo where
  physical_size : UVec2
  scale_factor : ℚ
deriving DecidableEq, Repr

/-- The read-only slice of `bevy::render::camera::Camera` this crate
queries: render target, optional explicit viewport, computed target info. -/
structure Camera where
  target : RenderTarget
  viewport : Option Viewport
  target_info : Option RenderTargetInfo
deriving DecidableEq, Repr

/-- `Camera::physical_target_size`. -/
def Camera.physical_target_size (c : Camera) : Option UVec2 :=
  match c.target_info with
  | none => none
  | some info => some info.physical_size

/-- `Camera::physical_viewport_size`: the explicit viewport's size, falling
back to the full physical target size. -/
def Camera.physical_viewport_size (c : Camera) : Option UVec2 :=
  match c.viewport with
  | some v => some v.physical_size
  | none => c.physical_target_size

/-- `Camera::physical_viewport_rect`: `(min, max)` corners, where `min` is
the viewport's physical position (`(0,0)` without an explicit viewport) and
`max = min + physical_viewport_size`. -/
def Camera.physical_viewport_rect (c : Camera) : Option (UVec2 × UVec2) :=
  match c.physical_viewport_size with
  | none => none
  | some size =>
    let pmin : UVec2 :=
      match c.viewport with
      | some v => v.physical_position
      | none => ⟨0, 0⟩
    some (pmin, ⟨pmin.x + size.x, pmin.y + size.y⟩)

/-- `Camera::logical_viewport_size`: the physical viewport (or target) size
divided by the target's scale factor. -/
def Camera.logical_viewport_size (c : Camera) : Option Vec2 :=
  match c.target_info with
  | none => none
  | some info =>
    match c.viewport with
    | some v =>
      some ⟨(v.physical_size.x : ℚ) / info.scale_factor,
            (v.physical_size.y : ℚ) / info.scale_factor⟩
    | none =>
      some ⟨(info.physical_size.x : ℚ) / info.scale_factor,
            (info.physical_size.y : ℚ) / info.scale_factor⟩

/-- `window_to_viewport` (src/mouse.rs): translates a window position into
the relative position in the viewport, if the cursor is over the viewport.
The bounds check truncates the position to `u32` and mirrors Y against the
physical target height; the returned Y is re-wrapped by the positive-modulo
formula applied to the (unmirrored) window Y. -/
def window_to_viewport (camera : Camera) (window_position : Vec2) :
    Option Vec2 :=
  match camera.physical_target_size with
  | none => none
  | some target_size =>
    match camera.physical_viewport_rect with
    | none => none
    | some (pmin, pmax) =>
      let height : ℤ := (target_size.y : ℤ)
      let cursor_x : ℕ := toU32sat window_position.x
      let mirror_y : ℕ := (height - ratTrunc window_position.y).toNat
      if pmin.x ≤ cursor_x ∧ pmin.y ≤ mirror_y ∧
          cursor_x < pmax.x ∧ mirror_y < pmax.y then
        match camera.physical_viewport_size with
        | none => none
        | some vp_size =>
          let vp_height : ℚ := (vp_size.y : ℚ)
          let unmirror_y : ℚ :=
            rustRem
              (rustRem (window_position.y - (pmin.y : ℚ)) vp_height + vp_height)
              vp_height
          some ⟨window_position.x - (pmin.x : ℚ), unmirror_y⟩
      else none

/-- `bevy::window::CursorMoved`: window id plus window-space position. -/
structure CursorMoved where
  id : ℕ
  position : Vec2
deriving DecidableEq, Repr

/-- One active touch contact (`bevy::input::touch::Touch`): only its
position is read by this crate. -/
structure Touch where
  position : Vec2
deriving DecidableEq, Repr

/-- `bevy_mod_raycast::RayCastMethod`: how a ray-cast source computes its
ray. Modelled from the spec: only the `Screenspace` variant is written by
this crate; the other variant stands for any non-screenspace state. -/
inductive RayCastMethod where
  | transform
  | screenspace (position : Vec2)
deriving DecidableEq, Repr

/-- `PickingCamera`'s ray-cast state. Modelled from the spec: the crate
root defining `PickingCamera` is not in the reviewed sources; per the spec
it is the camera-attached pick source holding the ray-cast method that
`update_pick_source_positions` overwrites. -/
structure PickingCamera where
  cast_method : RayCastMethod
deriving DecidableEq, Repr

/-- `UpdatePicks`. Modelled from the spec: the crate root defining it is
not in the reviewed sources; per the spec and the `match` arms in
src/mouse.rs it is `EveryFrame(cached_position)` or `OnMouseEvent`. -/
inductive UpdatePicks where
  | everyFrame (cached : Vec2)
  | onMouseEvent
deriving DecidableEq, Repr

/-- `get_inputs` (src/mouse.rs): validates a pick source's camera and
policy, then resolves this frame's candidate position from the last cursor
event (via `window_to_viewport` when the camera has an explicit viewport)
or, when no cursor event fired at all, from the latest active touch. -/
def get_inputs (option_camera : Option Camera)
    (option_update_picks : Option UpdatePicks)
    (cursor_last : Option CursorMoved) (touches_input : List Touch) :
    Option (UpdatePicks × Option Vec2) :=
  match option_camera with
  | none => none
  | some camera =>
  match option_update_picks with
  | none => none
  | some update_picks =>
  match camera.logical_viewport_size with
  | none => none
  | some logical_size =>
  let height : ℚ := logical_size.y
  match cursor_last with
  | some cursor_moved =>
    match camera.target with
    | RenderTarget.window w =>
      if cursor_moved.id = w then
        match camera.viewport with
        | some _ =>
          match window_to_viewport camera cursor_moved.position with
          | some pos => some (update_picks, some pos)
          | none => none
        | none => some (update_picks, some cursor_moved.position)
      else some (update_picks, none)
    | RenderTarget.image _ => some (update_picks, none)
  | none =>
    some (update_picks,
      (touches_input.getLast?).map fun touch =>
        ⟨touch.position.x, height - touch.position.y⟩)

/-- One row of the pick-source query: the ray-cast state, the optional
update policy, the optional camera. -/
structure PickSourceEntry where
  pick_source : PickingCamera
  update_picks : Option UpdatePicks
  camera : Option Camera
deriving DecidableEq, Repr

/-- The body of `update_pick_source_positions`'s loop for one pick source:
apply the update policy to the candidate position from `get_inputs`,
returning the (possibly) mutated entry. -/
def update_one (cursor_last : Option CursorMoved) (touches_input : List Touch)
    (entry : PickSourceEntry) : PickSourceEntry :=
  match get_inputs entry.camera entry.update_picks cursor_last touches_input with
  | none => entry
  | some (update_picks, cursor_latest) =>
    match update_picks with
    | UpdatePicks.everyFrame cached_cursor_pos =>
      match cursor_latest with
      | some cursor_moved =>
        { entry with
          pick_source := ⟨RayCastMethod.screenspace cursor_moved⟩
          update_picks := some (UpdatePicks.everyFrame cursor_moved) }
      | none =>
        { entry with
          pick_source := ⟨RayCastMethod.screenspace cached_cursor_pos⟩ }
    | UpdatePicks.onMouseEvent =>
      match cursor_latest with
      | some cursor_moved =>
        { entry with
          pick_source := ⟨RayCastMethod.screenspace cursor_moved⟩ }
      | none => entry

/-- `update_pick_source_positions` (src/mouse.rs): take the last cursor
event of the frame (`cursor.iter().last()`) and update every pick source. -/
def update_pick_source_positions (touches_input : List Touch)
    (cursor : List CursorMoved) (pick_source_query : List PickSourceEntry) :
    List PickSourceEntry :=
  let cursor_last := cursor.getLast?
  pick_source_query.map (update_one cursor_last touches_input)

/-- Repeated frames of `update_pick_source_positions` on one pick source,
with the same per-frame inputs each frame. -/
def iterate_frames (cursor : List CursorMoved) (touches_input : List Touch) :
    ℕ → PickSourceEntry → PickSourceEntry
  | 0, entry => entry
  | n + 1, entry =>
    iterate_frames cursor touches_input n (update_one cursor.getLast? touches_input entry)

/-! ## Pointer registry (src/lib.rs) -/

/-- `PointerId` (bevy_picking_core::pointer). Modelled from the spec:
variants `Mouse`, `Touch(contact_id)`, `Custom(opaque_id)`. -/
inductive PointerId where
  | mouse
  | touch (contact_id : ℕ)
  | custom (opaque_id : ℕ)
deriving DecidableEq, Repr

/-- A render-target location of a pointer (`bevy_picking_core`'s
`Location`). Modelled from the spec: window-space position plus the render
target it is over. -/
structure Location where
  position : Vec2
  target : RenderTarget
deriving DecidableEq, Repr

/-- `PointerLocation` component. Modelled from the spec: holds the current
`Option<Location>`; `default` is no location. -/
structure PointerLocation where
  location : Option Location
deriving DecidableEq, Repr

/-- `PointerPress` component. Modelled from the spec: button-down/up state
per pointer; `default` is unpressed. -/
structure PointerPress where
  button_pressed : Bool
deriving DecidableEq, Repr

/-- `PointerInteraction` component. Modelled from the spec: per-pointer
interaction-tracking state with a default value; its contents are opaque to
this core. -/
structure PointerInteraction where
  tracked : List ℕ
deriving DecidableEq, Repr

/-- `PointerBundle` (src/lib.rs): components needed to build a pointer. -/
structure PointerBundle where
  id : PointerId
  location : PointerLocation
  click : PointerPress
  interaction : PointerInteraction
deriving DecidableEq, Repr

/-- `PointerBundle::new` (src/lib.rs): a pointer with the given id and all
other components defaulted. -/
def PointerBundle.new (id : PointerId) : PointerBundle :=
  { id := id
  , location := ⟨none⟩
  , click := ⟨false⟩
  , interaction := ⟨[]⟩ }

/-- `add_default_pointers` (src/lib.rs): the list of pointer bundles the
startup system spawns, in spawn order — one mouse pointer, then
`Touch(i)` for `i` in `0..30`. -/
def add_default_pointers : List PointerBundle :=
  PointerBundle.new PointerId.mouse ::
    (List.range 30).map (fun i => PointerBundle.new (PointerId.touch i))

/-! ## Cursor input layer (crates/bevy_picking_input/src/mouse.rs) -/

/-- `CursorId` (bevy_picking_core::input). Modelled from the spec: the
identity of a cursor, with a mouse variant recognised by `is_mouse`. -/
inductive CursorId where
  | mouse
  | touch (contact_id : ℕ)
deriving DecidableEq, Repr

/-- `CursorId::is_mouse`. Modelled from the spec: true exactly for the
mouse cursor. -/
def CursorId.is_mouse : CursorId → Bool
  | CursorId.mouse => true
  | CursorId.touch _ => false

/-- `CursorLocation` component. Modelled from the spec: the cursor's
current `Option<Location>`. -/
structure CursorLocation where
  location : Option Location
deriving DecidableEq, Repr

/-- `CursorClick` component. Modelled from the spec: a boolean
"is pressed" flag. -/
structure CursorClick where
  is_clicked : Bool
deriving DecidableEq, Repr

/-- `CursorBundle`. Modelled from the spec: id, location and click state of
a cursor entity. -/
structure CursorBundle where
  id : CursorId
  location : CursorLocation
  click : CursorClick
deriving DecidableEq, Repr

/-- `CursorBundle::new`. Modelled from the spec: packs the components. -/
def CursorBundle.new (id : CursorId) (location : CursorLocation)
    (click : CursorClick) : CursorBundle :=
  { id := id, location := location, click := click }

/-- A window as read by `get_cursor_position`: its id and the cursor
position it reports, if any. -/
structure Window where
  id : ℕ
  cursor_position : Option Vec2
deriving DecidableEq, Repr

/-- `get_cursor_position` (crates/bevy_picking_input/src/mouse.rs): the
location of the first window reporting a cursor position. -/
def get_cursor_position (windows : List Window) : Option Location :=
  match windows with
  | [] => none
  | w :: rest =>
    match w.cursor_position with
    | some position => some ⟨position, RenderTarget.window w.id⟩
    | none => get_cursor_position rest

/-- `update_cursor` (crates/bevy_picking_input/src/mouse.rs): walk the
cursor query; at the first mouse-typed entry whose stored location differs
from the new one, overwrite it and return early.  If the walk finishes
without returning, spawn a fresh mouse cursor bundle.  Returns the updated
query rows and the list of spawned bundles. -/
def update_cursor (new_location : Option Location)
    (cursor_query : List (CursorId × CursorLocation)) :
    List (CursorId × CursorLocation) × List CursorBundle :=
  match cursor_query with
  | [] =>
    ([], [CursorBundle.new CursorId.mouse ⟨new_location⟩ ⟨false⟩])
  | (id, old_location) :: rest =>
    if id.is_mouse then
      if old_location.location ≠ new_location then
        ((id, ⟨new_location⟩) :: rest, [])
      else
        let next := update_cursor new_location rest
        ((id, old_location) :: next.1, next.2)
    else
      let next := update_cursor new_location rest
      ((id, old_location) :: next.1, next.2)

/-! ## Arithmetic facts about the embedded casts and remainder -/

theorem ratTrunc_natCast (n : ℕ) : ratTrunc (n : ℚ) = n := by
  unfold ratTrunc
  rw [if_pos (by positivity)]
  exact_mod_cast Int.floor_natCast n

theorem toU32sat_natCast (n : ℕ) : toU32sat (n : ℚ) = n := by
  unfold toU32sat
  by_cases h : (n : ℚ) ≤ 0
  · have hn : n = 0 := by exact_mod_cast le_antisymm h (by positivity)
    simp [hn]
  · rw [if_neg h, ratTrunc_natCast]
    simp

theorem rustRem_nonneg_bounds (a b : ℚ) (hb : 0 < b) (ha : 0 ≤ a) :
    0 ≤ rustRem a b ∧ rustRem a b < b := by
  have hq : (0 : ℚ) ≤ a / b := div_nonneg ha hb.le
  have htr : ratTrunc (a / b) = ⌊a / b⌋ := if_pos hq
  have hfl : ((⌊a / b⌋ : ℚ)) ≤ a / b := Int.floor_le _
  have hub : a / b < (⌊a / b⌋ : ℚ) + 1 := Int.lt_floor_add_one _
  have h1 : ((⌊a / b⌋ : ℚ)) * b ≤ a := (le_div_iff₀ hb).mp hfl
  have h2 : a < ((⌊a / b⌋ : ℚ) + 1) * b := (div_lt_iff₀ hb).mp hub
  unfold rustRem
  rw [htr]
  constructor
  · nlinarith
  · nlinarith

theorem rustRem_neg_bounds (a b : ℚ) (hb : 0 < b) (ha : a < 0) :
    -b < rustRem a b ∧ rustRem a b ≤ 0 := by
  have hq : a / b < 0 := div_neg_of_neg_of_pos ha hb
  have htr : ratTrunc (a / b) = ⌈a / b⌉ := if_neg (by linarith)
  have hce : a / b ≤ ((⌈a / b⌉ : ℚ)) := Int.le_ceil _
  have hcu : ((⌈a / b⌉ : ℚ)) < a / b + 1 := Int.ceil_lt_add_one _
  have h1 : a ≤ ((⌈a / b⌉ : ℚ)) * b := (div_le_iff₀ hb).mp hce
  have h2 : (((⌈a / b⌉ : ℚ)) - 1) * b < a := (lt_div_iff₀ hb).mp (by linarith)
  unfold rustRem
  rw [htr]
  constructor
  · nlinarith
  · nlinarith

theorem posmod_bounds (a b : ℚ) (hb : 0 < b) :
    0 ≤ rustRem (rustRem a b + b) b ∧ rustRem (rustRem a b + b) b < b := by
  have h0 : 0 ≤ rustRem a b + b := by
    rcases le_or_lt 0 a with ha | ha
    · have := (rustRem_nonneg_bounds a b hb ha).1
      linarith
    · have := (rustRem_neg_bounds a b hb ha).1
      linarith
  exact rustRem_nonneg_bounds _ b hb h0

/-! ## Concrete fixtures used by the scenario claims -/

/-- A camera with physical target height `300`, explicit viewport rectangle
`min = (100, 50)`, `max = (300, 250)`, rendering to window `0`. -/
def camA : Camera :=
  { target := RenderTarget.window 0
  , viewport := some ⟨⟨100, 50⟩, ⟨200, 200⟩⟩
  , target_info := some ⟨⟨400, 300⟩, 1⟩ }

/-! ## C1 — the coordinate-resolver scenario -/

/-- C1 counterexample: for the camera with target height `300` and viewport
rectangle `min = (100, 50)`, `max = (300, 250)`, the window position
`(150, 100)` resolves to viewport-local `(50, 50)` — the code wraps the
unmirrored window Y (`((100 − 50) mod 200 + 200) mod 200 = 50`) — not to
`(50, 150)` as the claim states. -/
theorem c1_counterexample :
    window_to_viewport camA ⟨150, 100⟩ = some ⟨50, 50⟩ ∧
    window_to_viewport camA ⟨150, 100⟩ ≠ some ⟨50, 150⟩ := by
  have h : window_to_viewport camA ⟨150, 100⟩ = some ⟨50, 50⟩ := by
    norm_num [window_to_viewport, camA, Camera.physical_target_size,
      Camera.physical_viewport_rect, Camera.physical_viewport_size,
      toU32sat, ratTrunc, rustRem]
  refine ⟨h, ?_⟩
  rw [h]
  intro hc
  injection hc with hv
  have hy : (50 : ℚ) = 150 := congrArg Vec2.y hv
  norm_num at hy

/-- C1 (amended): for the Coordinate Resolver given physical target height
`300` and physical viewport rectangle `min = (100, 50)`, `max = (300, 250)`:
window position `(150, 100)` yields `Some` with viewport-local position
`(50, 50)` (the Y output re-wraps the unmirrored window Y modulo the
viewport height), and window position `(50, 100)` yields `None` because
`x < min.x`. -/
theorem c1_amended :
    window_to_viewport camA ⟨150, 100⟩ = some ⟨50, 50⟩ ∧
    window_to_viewport camA ⟨50, 100⟩ = none := by
  constructor
  · norm_num [window_to_viewport, camA, Camera.physical_target_size,
      Camera.physical_viewport_rect, Camera.physical_viewport_size,
      toU32sat, ratTrunc, rustRem]
  · norm_num [window_to_viewport, camA, Camera.physical_target_size,
      Camera.physical_viewport_rect, Camera.physical_viewport_size,
      toU32sat, ratTrunc, rustRem]

/-! ## C4 — range invariant of the coordinate resolver -/

/-- Evaluation of `window_to_viewport` for a camera with an explicit
viewport: it reduces to a single bounds check over the truncated cursor
coordinates, producing the translated-and-rewrapped position. -/
theorem window_to_viewport_eval (c : Camera) (vp : Viewport)
    (ti : RenderTargetInfo) (hvp : c.viewport = some vp)
    (hti : c.target_info = some ti) (pos : Vec2) :
    window_to_viewport c pos =
      if vp.physical_position.x ≤ toU32sat pos.x ∧
          vp.physical_position.y ≤
            ((ti.physical_size.y : ℤ) - ratTrunc pos.y).toNat ∧
          toU32sat pos.x < vp.physical_position.x + vp.physical_size.x ∧
          ((ti.physical_size.y : ℤ) - ratTrunc pos.y).toNat <
            vp.physical_position.y + vp.physical_size.y then
        some ⟨pos.x - (vp.physical_position.x : ℚ),
          rustRem
            (rustRem (pos.y - (vp.physical_position.y : ℚ))
                (vp.physical_size.y : ℚ) + (vp.physical_size.y : ℚ))
            (vp.physical_size.y : ℚ)⟩
      else none := by
  simp only [window_to_viewport, Camera.physical_target_size,
    Camera.physical_viewport_rect, Camera.physical_viewport_size, hvp, hti]

/-- C4 (amended): for a camera with an explicit viewport and every window
position with nonnegative integer coordinates, a `Some p` result satisfies
`0 ≤ p < max − min` componentwise, and every position whose
`(x, mirrored_y)` falls outside `[min, max)` yields `None` (out-of-bounds
positions are never clamped into range).  The restriction to integer
coordinates is forced: fractional or negative coordinates interact with the
truncating `u32` casts of the bounds check. -/
theorem c4_amended (c : Camera) (vp : Viewport) (ti : RenderTargetInfo)
    (hvp : c.viewport = some vp) (hti : c.target_info = some ti)
    (px py : ℕ) :
    (∀ p : Vec2, window_to_viewport c ⟨(px : ℚ), (py : ℚ)⟩ = some p →
        0 ≤ p.x ∧ p.x < (vp.physical_size.x : ℚ) ∧
        0 ≤ p.y ∧ p.y < (vp.physical_size.y : ℚ)) ∧
    ((px < vp.physical_position.x ∨
        ((ti.physical_size.y : ℤ) - (py : ℤ)).toNat < vp.physical_position.y ∨
        vp.physical_position.x + vp.physical_size.x ≤ px ∨
        vp.physical_position.y + vp.physical_size.y ≤
          ((ti.physical_size.y : ℤ) - (py : ℤ)).toNat) →
      window_to_viewport c ⟨(px : ℚ), (py : ℚ)⟩ = none) := by
  have heval := window_to_viewport_eval c vp ti hvp hti ⟨(px : ℚ), (py : ℚ)⟩
  simp only [toU32sat_natCast, ratTrunc_natCast] at heval
  constructor
  · intro p hp
    rw [heval] at hp
    by_cases hcond : vp.physical_position.x ≤ px ∧
        vp.physical_position.y ≤ ((ti.physical_size.y : ℤ) - (py : ℤ)).toNat ∧
        px < vp.physical_position.x + vp.physical_size.x ∧
        ((ti.physical_size.y : ℤ) - (py : ℤ)).toNat <
          vp.physical_position.y + vp.physical_size.y
    · rw [if_pos hcond] at hp
      obtain ⟨h1, h2, h3, h4⟩ := hcond
      have hsy : 0 < vp.physical_size.y := by omega
      have hsyq : (0 : ℚ) < (vp.physical_size.y : ℚ) := by
        exact_mod_cast hsy
      have hpmod := posmod_bounds
        ((py : ℚ) - (vp.physical_position.y : ℚ)) (vp.physical_size.y : ℚ) hsyq
      cases hp
      dsimp only
      refine ⟨?_, ?_, hpmod.1, hpmod.2⟩
      · have : (vp.physical_position.x : ℚ) ≤ (px : ℚ) := by exact_mod_cast h1
        simp only [sub_nonneg]
        exact this
      · have : (px : ℚ) <
            (vp.physical_position.x : ℚ) + (vp.physical_size.x : ℚ) := by
          exact_mod_cast h3
        linarith
    · rw [if_neg hcond] at hp
      exact absurd hp (by simp)
  · intro hout
    rw [heval]
    refine if_neg ?_
    rintro ⟨h1, h2, h3, h4⟩
    rcases hout with h | h | h | h
    · omega
    · omega
    · omega
    · omega

/-- A camera whose viewport starts at `x = 0`: rectangle `min = (0, 50)`,
`max = (300, 250)`, physical target height `300`, window `0`. -/
def camB : Camera :=
  { target := RenderTarget.window 0
  , viewport := some ⟨⟨0, 50⟩, ⟨300, 200⟩⟩
  , target_info := some ⟨⟨300, 300⟩, 1⟩ }

/-- C4 counterexample: on a viewport with `min = (0, 50)`,
`max = (300, 250)`, the window position `(−1/2, 100)` — whose `x` lies
outside `[min.x, max.x)` — is *not* rejected (the saturating `u32` cast
turns `−1/2` into `0`), and the resolved position has `p.x = −1/2 < 0`,
violating both `0 ≤ p` and the "outside positions yield None" sentence. -/
theorem c4_counterexample :
    window_to_viewport camB ⟨-(1 : ℚ) / 2, 100⟩ = some ⟨-(1 : ℚ) / 2, 50⟩ ∧
    (-(1 : ℚ) / 2 < 0) := by
  constructor
  · norm_num [window_to_viewport, camB, Camera.physical_target_size,
      Camera.physical_viewport_rect, Camera.physical_viewport_size,
      toU32sat, ratTrunc, rustRem]
  · norm_num

/-- C4 witness: instantiating the amended theorem at the scenario camera
(`min = (100, 50)`, `max = (300, 250)`, target height `300`) and the
in-bounds integer window position `(150, 100)`. -/
theorem c4_witness :
    camA.viewport = some ⟨⟨100, 50⟩, ⟨200, 200⟩⟩ ∧
    camA.target_info = some ⟨⟨400, 300⟩, 1⟩ ∧
    ((∀ p : Vec2, window_to_viewport camA ⟨(150 : ℕ), (100 : ℕ)⟩ = some p →
        0 ≤ p.x ∧ p.x < ((200 : ℕ) : ℚ) ∧ 0 ≤ p.y ∧ p.y < ((200 : ℕ) : ℚ)) ∧
      (((150 : ℕ) < 100 ∨
          (((300 : ℕ) : ℤ) - ((100 : ℕ) : ℤ)).toNat < 50 ∨
          100 + 200 ≤ (150 : ℕ) ∨
          50 + 200 ≤ (((300 : ℕ) : ℤ) - ((100 : ℕ) : ℤ)).toNat) →
        window_to_viewport camA ⟨(150 : ℕ), (100 : ℕ)⟩ = none)) :=
  ⟨rfl, rfl, c4_amended camA ⟨⟨100, 50⟩, ⟨200, 200⟩⟩ ⟨⟨400, 300⟩, 1⟩ rfl rfl 150 100⟩

/-! ## C2 — EveryFrame policy with an out-of-viewport event -/

/-- C2 (amended): for a pick source whose policy is `EveryFrame(cached)`
and whose camera has an explicit viewport, when the frame's cursor event
matches the camera's window but its position resolves outside the viewport
(`window_to_viewport` returns `None`), the pick source is skipped entirely
this frame: neither its ray-cast state nor its cache is written, the entry
is returned unchanged. -/
theorem c2_amended (entry : PickSourceEntry) (c : Camera) (vp : Viewport)
    (w : ℕ) (cached : Vec2) (cm : CursorMoved) (touches : List Touch)
    (hcam : entry.camera = some c)
    (hup : entry.update_picks = some (UpdatePicks.everyFrame cached))
    (htgt : c.target = RenderTarget.window w)
    (hvp : c.viewport = some vp)
    (hid : cm.id = w)
    (hout : window_to_viewport c cm.position = none) :
    update_one (some cm) touches entry = entry := by
  have hgi : get_inputs (some c) (some (UpdatePicks.everyFrame cached))
      (some cm) touches = none := by
    cases hsz : c.logical_viewport_size with
    | none => simp [get_inputs, hsz]
    | some sz => simp [get_inputs, hsz, htgt, hvp, hid, hout]
  unfold update_one
  rw [hcam, hup, hgi]

/-- A pick source on the scenario camera `camA`, currently in
non-screenspace ray-cast state, with policy `EveryFrame((5, 5))`. -/
def entryA : PickSourceEntry :=
  { pick_source := ⟨RayCastMethod.transform⟩
  , update_picks := some (UpdatePicks.everyFrame ⟨5, 5⟩)
  , camera := some camA }

/-- C2 counterexample: a cursor event for the right window at `(50, 100)`
resolves outside `camA`'s viewport (`x < min.x`); the update leaves the
pick source byte-identical, so the cached position `(5, 5)` is *not*
written into the ray-cast state (which still holds the non-screenspace
value), contradicting the claimed fallback-to-cached write. -/
theorem c2_counterexample :
    update_one (some ⟨0, ⟨50, 100⟩⟩) [] entryA = entryA ∧
    entryA.pick_source.cast_method ≠ RayCastMethod.screenspace ⟨5, 5⟩ := by
  constructor
  · norm_num [update_one, get_inputs, entryA, camA,
      Camera.logical_viewport_size, window_to_viewport,
      Camera.physical_target_size, Camera.physical_viewport_rect,
      Camera.physical_viewport_size, toU32sat, ratTrunc, rustRem]
  · simp [entryA]

/-- C2 witness: the amended theorem instantiated on `camA`, the cursor
event `(50, 100)` for window `0`, and cached position `(5, 5)`. -/
theorem c2_witness :
    (entryA.camera = some camA ∧
      entryA.update_picks = some (UpdatePicks.everyFrame ⟨5, 5⟩) ∧
      camA.target = RenderTarget.window 0 ∧
      camA.viewport = some ⟨⟨100, 50⟩, ⟨200, 200⟩⟩ ∧
      (CursorMoved.mk 0 ⟨50, 100⟩).id = 0 ∧
      window_to_viewport camA (CursorMoved.mk 0 ⟨50, 100⟩).position = none) ∧
    update_one (some ⟨0, ⟨50, 100⟩⟩) [] entryA = entryA :=
  ⟨⟨rfl, rfl, rfl, rfl, rfl, by
      norm_num [window_to_viewport, camA, Camera.physical_target_size,
        Camera.physical_viewport_rect, Camera.physical_viewport_size,
        toU32sat, ratTrunc, rustRem]⟩,
    c2_amended entryA camA ⟨⟨100, 50⟩, ⟨200, 200⟩⟩ 0 ⟨5, 5⟩ ⟨0, ⟨50, 100⟩⟩ []
      rfl rfl rfl rfl rfl
      (by norm_num [window_to_viewport, camA, Camera.physical_target_size,
        Camera.physical_viewport_rect, Camera.physical_viewport_size,
        toU32sat, ratTrunc, rustRem])⟩

/-! ## C3 — touch fallback -/

/-- C3 (amended): for a camera with a resolvable logical viewport size, the
latest active touch position, Y-mirrored against the logical viewport
height, is the candidate position exactly when *no* cursor-moved event at
all fired this frame; when an event fired for a *different* window id, the
candidate is `None` and the touch fallback is not consulted. -/
theorem c3_amended (c : Camera) (u : UpdatePicks) (sz : Vec2)
    (touches : List Touch) (t : Touch)
    (hsz : c.logical_viewport_size = some sz)
    (hlast : touches.getLast? = some t) :
    get_inputs (some c) (some u) none touches =
      some (u, some ⟨t.position.x, sz.y - t.position.y⟩) ∧
    ∀ (cm : CursorMoved) (w : ℕ), c.target = RenderTarget.window w →
      cm.id ≠ w → get_inputs (some c) (some u) (some cm) touches =
        some (u, none) := by
  constructor
  · simp [get_inputs, hsz, hlast]
  · intro cm w htgt hid
    simp [get_inputs, hsz, htgt, hid]

/-- A full-window camera (no explicit viewport) on window `0` with logical
viewport size `(500, 400)`. -/
def camC : Camera :=
  { target := RenderTarget.window 0
  , viewport := none
  , target_info := some ⟨⟨500, 400⟩, 1⟩ }

/-- C3 counterexample: with a touch contact at `(10, 20)` and a cursor
event that fired for a *different* window (id `1` while the camera renders
to window `0`), `get_inputs` yields candidate `None` — the claimed
touch-fallback position `(10, 380)` is not used. -/
theorem c3_counterexample :
    get_inputs (some camC) (some UpdatePicks.onMouseEvent)
        (some ⟨1, ⟨0, 0⟩⟩) [⟨⟨10, 20⟩⟩] =
      some (UpdatePicks.onMouseEvent, none) ∧
    (none : Option Vec2) ≠ some ⟨10, 380⟩ := by
  constructor
  · norm_num [get_inputs, camC, Camera.logical_viewport_size]
  · simp

/-- C3 witness: the amended theorem at `camC` (logical height `400`), a
touch at `(10, 20)` when no cursor event fired — mirrored candidate
`(10, 400 − 20)` — and, for the second conjunct, a cursor event for
window `1`. -/
theorem c3_witness :
    (camC.logical_viewport_size = some ⟨500, 400⟩ ∧
      ([Touch.mk ⟨10, 20⟩].getLast? = some ⟨⟨10, 20⟩⟩)) ∧
    get_inputs (some camC) (some UpdatePicks.onMouseEvent) none [⟨⟨10, 20⟩⟩] =
      some (UpdatePicks.onMouseEvent, some ⟨10, (400 : ℚ) - 20⟩) ∧
    get_inputs (some camC) (some UpdatePicks.onMouseEvent)
        (some ⟨1, ⟨0, 0⟩⟩) [⟨⟨10, 20⟩⟩] =
      some (UpdatePicks.onMouseEvent, none) := by
  have h := c3_amended camC UpdatePicks.onMouseEvent ⟨500, 400⟩
    [⟨⟨10, 20⟩⟩] ⟨⟨10, 20⟩⟩
    (by norm_num [Camera.logical_viewport_size, camC]) rfl
  exact ⟨⟨by norm_num [Camera.logical_viewport_size, camC], rfl⟩,
    h.1, h.2 ⟨1, ⟨0, 0⟩⟩ 0 rfl (by norm_num)⟩

/-! ## C6 — EveryFrame policy replays the cache; events overwrite both -/

/-- On a frame whose inputs produce no candidate position for the camera —
either no cursor event fired and no touch is active, or the frame's last
cursor event targets a window other than the camera's render target — a
pick source under `EveryFrame(cached)` with a ready camera gets
`Screenspace(cached)` written into its ray-cast state and nothing else
changed. -/
theorem update_one_nomatch_everyFrame (entry : PickSourceEntry) (c : Camera)
    (sz cached : Vec2) (cursor_last : Option CursorMoved)
    (touches : List Touch)
    (hcam : entry.camera = some c) (hsz : c.logical_viewport_size = some sz)
    (hup : entry.update_picks = some (UpdatePicks.everyFrame cached))
    (hquiet : (cursor_last = none ∧ touches = []) ∨
      ∃ cm w, cursor_last = some cm ∧ c.target = RenderTarget.window w ∧
        cm.id ≠ w) :
    update_one cursor_last touches entry =
      { entry with pick_source := ⟨RayCastMethod.screenspace cached⟩ } := by
  have hgi : get_inputs (some c) (some (UpdatePicks.everyFrame cached))
      cursor_last touches = some (UpdatePicks.everyFrame cached, none) := by
    rcases hquiet with ⟨hnone, htouch⟩ | ⟨cm, w, hlast, htgt, hid⟩
    · subst hnone
      subst htouch
      simp [get_inputs, hsz]
    · subst hlast
      simp [get_inputs, hsz, htgt, hid]
  unfold update_one
  rw [hcam, hup, hgi]

/-- Candidate-free frames are idempotent after the first under
`EveryFrame(cached)`: any positive number of them leaves the entry with
exactly `Screenspace(cached)` as ray-cast state and everything else
untouched. -/
theorem iterate_frames_nomatch_everyFrame (c : Camera) (sz cached : Vec2)
    (events : List CursorMoved) (touches : List Touch)
    (hsz : c.logical_viewport_size = some sz)
    (hquiet : (events.getLast? = none ∧ touches = []) ∨
      ∃ cm w, events.getLast? = some cm ∧ c.target = RenderTarget.window w ∧
        cm.id ≠ w) :
    ∀ (n : ℕ) (entry : PickSourceEntry), entry.camera = some c →
      entry.update_picks = some (UpdatePicks.everyFrame cached) →
      iterate_frames events touches (n + 1) entry =
        { entry with pick_source := ⟨RayCastMethod.screenspace cached⟩ } := by
  intro n
  induction n with
  | zero =>
    intro entry hcam hup
    show iterate_frames events touches 0
      (update_one events.getLast? touches entry) = _
    rw [update_one_nomatch_everyFrame entry c sz cached events.getLast?
      touches hcam hsz hup hquiet]
    rfl
  | succ m ih =>
    intro entry hcam hup
    show iterate_frames events touches (m + 1)
      (update_one events.getLast? touches entry) = _
    rw [update_one_nomatch_everyFrame entry c sz cached events.getLast?
      touches hcam hsz hup hquiet]
    exact ih _ hcam hup

/-- C6: for every pick source with policy `EveryFrame(cached)` and a ready
camera: after `n ≥ 1` consecutive frames producing no candidate position —
no matching cursor-moved event (none at all, or one for a different
window) and no active touch — the ray-cast state equals
`Screenspace(cached)` and the cache is unchanged; and on any frame with a
resolved candidate position `p` — a matching window event used raw (no
explicit viewport) or resolved through `window_to_viewport` (explicit
viewport), or the Y-mirrored touch fallback — both the ray-cast state and
the cache are overwritten with `p`. -/
theorem c6_every_frame_policy (entry : PickSourceEntry) (c : Camera)
    (sz cached : Vec2) (n : ℕ) (events : List CursorMoved)
    (touches : List Touch)
    (hcam : entry.camera = some c) (hsz : c.logical_viewport_size = some sz)
    (hup : entry.update_picks = some (UpdatePicks.everyFrame cached))
    (hn : 1 ≤ n)
    (hquiet : (events.getLast? = none ∧ touches = []) ∨
      ∃ cm w, events.getLast? = some cm ∧ c.target = RenderTarget.window w ∧
        cm.id ≠ w) :
    ((iterate_frames events touches n entry).pick_source.cast_method
        = RayCastMethod.screenspace cached ∧
      (iterate_frames events touches n entry).update_picks
        = some (UpdatePicks.everyFrame cached)) ∧
    ∀ (cursor_last : Option CursorMoved) (frame_touches : List Touch)
        (p : Vec2),
      ((∃ cm w, cursor_last = some cm ∧ c.target = RenderTarget.window w ∧
          cm.id = w ∧
          ((c.viewport = none ∧ p = cm.position) ∨
            (c.viewport ≠ none ∧ window_to_viewport c cm.position = some p))) ∨
        (cursor_last = none ∧
          ∃ t, frame_touches.getLast? = some t ∧
            p = ⟨t.position.x, sz.y - t.position.y⟩)) →
      (update_one cursor_last frame_touches entry).pick_source.cast_method
          = RayCastMethod.screenspace p ∧
      (update_one cursor_last frame_touches entry).update_picks
          = some (UpdatePicks.everyFrame p) := by
  constructor
  · obtain ⟨m, rfl⟩ : ∃ m, n = m + 1 := ⟨n - 1, by omega⟩
    rw [iterate_frames_nomatch_everyFrame c sz cached events touches hsz
      hquiet m entry hcam hup, hup]
    exact ⟨rfl, rfl⟩
  · intro cursor_last frame_touches p hres
    have hgi : get_inputs (some c) (some (UpdatePicks.everyFrame cached))
        cursor_last frame_touches
        = some (UpdatePicks.everyFrame cached, some p) := by
      rcases hres with ⟨cm, w, hlast, htgt, hid, hbranch⟩ | ⟨hlast, t, htl, hp⟩
      · subst hlast
        rcases hbranch with ⟨hnvp, hp⟩ | ⟨hvpne, hw2v⟩
        · subst hp
          simp [get_inputs, hsz, htgt, hid, hnvp]
        · cases hvp : c.viewport with
          | none => exact absurd hvp hvpne
          | some vp => simp [get_inputs, hsz, htgt, hid, hvp, hw2v]
      · subst hlast
        subst hp
        simp [get_inputs, hsz, htl]
    unfold update_one
    rw [hcam, hup, hgi]
    exact ⟨rfl, rfl⟩

/-- A pick source on the full-window camera `camC` with policy
`EveryFrame((3, 4))` and a non-screenspace ray-cast state. -/
def entryB : PickSourceEntry :=
  { pick_source := ⟨RayCastMethod.transform⟩
  , update_picks := some (UpdatePicks.everyFrame ⟨3, 4⟩)
  , camera := some camC }

/-- C6 witness: two frames whose only cursor event targets the *wrong*
window (id `5` while `entryB`'s camera renders to window `0`) leave
`Screenspace((3, 4))` replayed in the ray-cast state with the cache
unchanged; a matching cursor event at `(7, 8)` overwrites state and cache
with `(7, 8)`; and the touch fallback at `(10, 20)` overwrites them with
the mirrored `(10, 400 − 20)`. -/
theorem c6_witness :
    (entryB.camera = some camC ∧
      camC.logical_viewport_size = some ⟨500, 400⟩ ∧
      entryB.update_picks = some (UpdatePicks.everyFrame ⟨3, 4⟩) ∧
      (1 : ℕ) ≤ 2 ∧
      [CursorMoved.mk 5 ⟨1, 1⟩].getLast? = some ⟨5, ⟨1, 1⟩⟩ ∧
      camC.target = RenderTarget.window 0 ∧ (5 : ℕ) ≠ 0) ∧
    (iterate_frames [⟨5, ⟨1, 1⟩⟩] [] 2 entryB).pick_source.cast_method
      = RayCastMethod.screenspace ⟨3, 4⟩ ∧
    (iterate_frames [⟨5, ⟨1, 1⟩⟩] [] 2 entryB).update_picks
      = some (UpdatePicks.everyFrame ⟨3, 4⟩) ∧
    (update_one (some ⟨0, ⟨7, 8⟩⟩) [] entryB).pick_source.cast_method
      = RayCastMethod.screenspace ⟨7, 8⟩ ∧
    (update_one (some ⟨0, ⟨7, 8⟩⟩) [] entryB).update_picks
      = some (UpdatePicks.everyFrame ⟨7, 8⟩) ∧
    (update_one none [⟨⟨10, 20⟩⟩] entryB).pick_source.cast_method
      = RayCastMethod.screenspace ⟨10, (400 : ℚ) - 20⟩ := by
  have h := c6_every_frame_policy entryB camC ⟨500, 400⟩ ⟨3, 4⟩ 2
    [⟨5, ⟨1, 1⟩⟩] [] rfl
    (by norm_num [Camera.logical_viewport_size, camC]) rfl (by norm_num)
    (Or.inr ⟨⟨5, ⟨1, 1⟩⟩, 0, rfl, rfl, by norm_num⟩)
  have h2a := h.2 (some ⟨0, ⟨7, 8⟩⟩) [] ⟨7, 8⟩
    (Or.inl ⟨⟨0, ⟨7, 8⟩⟩, 0, rfl, rfl, rfl, Or.inl ⟨rfl, rfl⟩⟩)
  have h2b := h.2 none [⟨⟨10, 20⟩⟩] ⟨10, (400 : ℚ) - 20⟩
    (Or.inr ⟨rfl, ⟨⟨10, 20⟩⟩, rfl, rfl⟩)
  exact ⟨⟨rfl, by norm_num [Camera.logical_viewport_size, camC], rfl,
    by norm_num, rfl, rfl, by norm_num⟩,
    h.1.1, h.1.2, h2a.1, h2a.2, h2b.1⟩

/-! ## C7 — OnMouseEvent policy skips event-free frames entirely -/

/-- On an event-free frame a pick source under `OnMouseEvent` is returned
byte-identical, whatever its camera. -/
theorem update_one_quiet_onMouseEvent (entry : PickSourceEntry)
    (hup : entry.update_picks = some UpdatePicks.onMouseEvent) :
    update_one none [] entry = entry := by
  unfold update_one
  rw [hup]
  cases hcam : entry.camera with
  | none => simp [get_inputs]
  | some c =>
    cases hsz : c.logical_viewport_size with
    | none => simp [get_inputs, hsz]
    | some sz => simp [get_inputs, hsz]

/-- C7: for a pick source with policy `OnMouseEvent`, any number of
consecutive frames with no cursor event and no active touch leaves the
entire entry — ray-cast state and `UpdatePicks` component included —
byte-identical to its pre-frame value. -/
theorem c7_on_mouse_event_policy (entry : PickSourceEntry) (n : ℕ)
    (hup : entry.update_picks = some UpdatePicks.onMouseEvent) :
    iterate_frames [] [] n entry = entry := by
  induction n with
  | zero => rfl
  | succ m ih =>
    show iterate_frames [] [] m (update_one none [] entry) = entry
    rw [update_one_quiet_onMouseEvent entry hup]
    exact ih

/-- A pick source on `camC` with policy `OnMouseEvent` and a screenspace
ray-cast state left over from an earlier event. -/
def entryC : PickSourceEntry :=
  { pick_source := ⟨RayCastMethod.screenspace ⟨9, 9⟩⟩
  , update_picks := some UpdatePicks.onMouseEvent
  , camera := some camC }

/-- C7 witness: two consecutive event-free frames leave `entryC`
byte-identical. -/
theorem c7_witness :
    entryC.update_picks = some UpdatePicks.onMouseEvent ∧
    iterate_frames [] [] 2 entryC = entryC :=
  ⟨rfl, c7_on_mouse_event_policy entryC 2 rfl⟩

/-! ## C8 — only the last cursor event of the frame matters -/

/-- C8: `update_pick_source_positions` reads the frame's cursor-moved
stream only through `cursor.iter().last()`: two event streams with the same
last event produce identical updates on every pick source, so earlier
events in the same frame have no effect. -/
theorem c8_last_event_only (touches : List Touch) (e1 e2 : List CursorMoved)
    (q : List PickSourceEntry) (h : e1.getLast? = e2.getLast?) :
    update_pick_source_positions touches e1 q =
      update_pick_source_positions touches e2 q := by
  unfold update_pick_source_positions
  rw [h]

/-- C8 witness: two events for window `0` in one frame versus just the
second one — identical result on a concrete pick source. -/
theorem c8_witness :
    ([CursorMoved.mk 0 ⟨1, 1⟩, CursorMoved.mk 0 ⟨2, 2⟩].getLast?
      = [CursorMoved.mk 0 ⟨2, 2⟩].getLast?) ∧
    update_pick_source_positions [] [⟨0, ⟨1, 1⟩⟩, ⟨0, ⟨2, 2⟩⟩] [entryB] =
      update_pick_source_positions [] [⟨0, ⟨2, 2⟩⟩] [entryB] :=
  ⟨rfl, c8_last_event_only [] [⟨0, ⟨1, 1⟩⟩, ⟨0, ⟨2, 2⟩⟩] [⟨0, ⟨2, 2⟩⟩]
    [entryB] rfl⟩

/-! ## C5 — duplicate mouse cursor spawn (code bug) -/

/-- C5, evaluation at the failing input: a mouse-typed cursor entity
already exists and its stored location equals the newly computed one
(`Some` of position `(3, 4)` on window `0`, i.e. a stationary cursor).
`update_cursor` scans past it (it returns early only when the location
*differs*), reaches the end of the query, and spawns a *second* mouse
cursor bundle — contradicting the claim (and the spec's algorithm, which
creates a cursor only when no mouse pointer exists yet). -/
theorem c5_code_bug_eval :
    update_cursor (some ⟨⟨3, 4⟩, RenderTarget.window 0⟩)
        [(CursorId.mouse, ⟨some ⟨⟨3, 4⟩, RenderTarget.window 0⟩⟩)] =
      ([(CursorId.mouse, ⟨some ⟨⟨3, 4⟩, RenderTarget.window 0⟩⟩)],
        [CursorBundle.new CursorId.mouse
          ⟨some ⟨⟨3, 4⟩, RenderTarget.window 0⟩⟩ ⟨false⟩]) := by
  norm_num [update_cursor, CursorId.is_mouse]

/-! ## C9 — default pointer registry -/

/-- C9: `add_default_pointers` spawns exactly one `Mouse` pointer and
exactly thirty `Touch(i)` pointers, one for each `i < 30`, every bundle
carrying the default location (`None`) and the default unpressed button
state. -/
theorem c9_default_pointers :
    add_default_pointers.length = 31 ∧
    (add_default_pointers.filter
      (fun b => b.id = PointerId.mouse)).length = 1 ∧
    (add_default_pointers.filter (fun b =>
      match b.id with
      | PointerId.touch _ => true
      | _ => false)).length = 30 ∧
    (∀ i : ℕ, i < 30 →
      (add_default_pointers.filter
        (fun b => b.id = PointerId.touch i)).length = 1) ∧
    (∀ b ∈ add_default_pointers,
      b.location = ⟨none⟩ ∧ b.click = ⟨false⟩) := by
  decide

/-! ## C10 — first window with a cursor position wins -/

/-- C10: `get_cursor_position` returns the location (cursor position plus
window render target) built from the *first* window, in iteration order,
that reports a cursor position — later windows are ignored — and returns
`None` exactly when no window reports one. -/
theorem c10_get_cursor_position (windows : List Window) :
    get_cursor_position windows =
      (windows.find? (fun w => w.cursor_position.isSome)).bind
        (fun w => w.cursor_position.map
          (fun p => ⟨p, RenderTarget.window w.id⟩)) ∧
    (get_cursor_position windows = none ↔
      ∀ w ∈ windows, w.cursor_position = none) := by
  induction windows with
  | nil => simp [get_cursor_position]
  | cons w rest ih =>
    cases hw : w.cursor_position with
    | none =>
      constructor
      · simpa [get_cursor_position, hw, List.find?_cons] using ih.1
      · simp only [get_cursor_position, hw, List.mem_cons]
        rw [ih.2]
        constructor
        · intro h x hx
          rcases hx with hx | hx
          · rw [hx]; exact hw
          · exact h x hx
        · intro h x hx
          exact h x (Or.inr hx)
    | some p =>
      constructor
      · simp [get_cursor_position, hw, List.find?_cons]
      · simp [get_cursor_position, hw]

end Picking
